import Mathlib

/-!
Verification of the parse-pdfs pipeline: a shallow embedding of the
term loader, pattern matcher, file scanner and result aggregator,
with theorems checking the specification's claims against the code.

Modelling conventions: texts are `List Char` (Python `str`), paths are
`String`, Python integers are `Int` where the sign matters and `Nat`
where the code guarantees non-negativity.  The regular-expression
engine (`re`) is an external collaborator: it is modelled as a
parameter `compile` mapping a pattern string to `none` (a `re.error`
raised on compilation) or to a finditer function returning the
non-overlapping match spans `(start, stop)` in scan order.
-/

/-- Python slice `text[a:b]` for non-negative indices: both ends are
clamped to the text length and the result is empty when `a ≥ b`. -/
def pySlice (text : List Char) (a b : Nat) : List Char :=
  (text.take b).drop a

/-- A compiled pattern bound to its matcher: given a text, the list of
match spans `(start, stop)` that `re.finditer` yields. -/
abbrev Matcher := List Char → List (Nat × Nat)

/-- The regex engine, i.e. `re.compile(pattern, re.IGNORECASE | re.MULTILINE)`
followed by `.finditer`; `none` models a `re.error` on compilation. -/
abbrev RegexEngine := String → Option Matcher

/-- From src/src/pdf_processor.py, class `PDFMatch`: a single regex match
in a PDF page. -/
structure PDFMatch where
  term_name : String
  matched_text : List Char
  page_number : Nat
  context_before : List Char
  context_after : List Char
  position : Nat
deriving DecidableEq, Repr

/-- Body of the `finditer` loop in `search_text_for_patterns`
(src/src/pdf_processor.py lines 111-133): build the record for one span,
with `context_start = max(0, start_pos - context_before)` and
`context_end = min(len(text), end_pos + context_after)`;
`matched_text` is `match.group(0)`, the substring spanned by the match. -/
def mkPdfMatch (text : List Char) (termName : String) (pageNumber : Nat)
    (contextBefore contextAfter : Nat) (span : Nat × Nat) : PDFMatch :=
  let startPos := span.1
  let endPos := span.2
  let contextStart := (max 0 ((startPos : Int) - (contextBefore : Int))).toNat
  let contextEnd := min text.length (endPos + contextAfter)
  { term_name := termName
    matched_text := pySlice text startPos endPos
    page_number := pageNumber
    context_before := pySlice text contextStart startPos
    context_after := pySlice text endPos contextEnd
    position := startPos }

/-- src/src/pdf_processor.py, `search_text_for_patterns`: iterate the term
dictionary in its insertion order; for each term compile its pattern —
skipping the whole term when compilation fails, as the
`except re.error: continue` branch does — and append one `PDFMatch`
per span that `finditer` yields, into one shared `matches` list. -/
def search_text_for_patterns (compile : RegexEngine) (text : List Char)
    (termDict : List (String × String)) (pageNumber : Nat)
    (contextBefore contextAfter : Nat) : List PDFMatch :=
  termDict.foldl
    (fun acc term =>
      match compile term.2 with
      | none => acc
      | some finditer =>
          acc ++ (finditer text).map
            (mkPdfMatch text term.1 pageNumber contextBefore contextAfter))
    []

/-- The spans a single term contributes: empty when its pattern fails to
compile. -/
def termSpans (compile : RegexEngine) (pat : String) (text : List Char) :
    List (Nat × Nat) :=
  match compile pat with
  | none => []
  | some finditer => finditer text

/-- The block of match records a single term contributes to
`search_text_for_patterns`. -/
def termGroup (compile : RegexEngine) (text : List Char) (term : String × String)
    (pageNumber contextBefore contextAfter : Nat) : List PDFMatch :=
  (termSpans compile term.2 text).map
    (mkPdfMatch text term.1 pageNumber contextBefore contextAfter)

/-- src/src/pdf_processor.py, `process_pdf_file`: search every page in
order and concatenate the per-page match lists. The page dict produced
by `extract_text_from_pdf` is modelled as an association list in its
insertion order (page 1, 2, ...). -/
def process_pdf_file (compile : RegexEngine) (pageTexts : List (Nat × List Char))
    (termDict : List (String × String)) (contextBefore contextAfter : Nat) :
    List PDFMatch :=
  (pageTexts.map (fun page =>
    search_text_for_patterns compile page.2 termDict page.1 contextBefore contextAfter)).flatten

/-- The pattern strings passed to `re.compile` during one call of
`search_text_for_patterns`: the source calls `re.compile(pattern, ...)`
once for every term of its loop (src/src/pdf_processor.py line 108), so
the trace is the term dict's pattern column. -/
def search_compile_trace (termDict : List (String × String)) : List String :=
  termDict.map Prod.snd

/-- The pattern strings passed to `re.compile` while `process_pdf_file`
handles one file: one `search_text_for_patterns` call per page, each
re-running every `re.compile`; the source keeps no compiled-pattern
cache between pages or files. -/
def process_compile_trace (pageTexts : List (Nat × List Char))
    (termDict : List (String × String)) : List String :=
  (pageTexts.map (fun _ => search_compile_trace termDict)).flatten

/-- `pathlib.Path(p).name`: the part of the path after the last slash. -/
def pathName (p : String) : String :=
  String.mk (p.toList.foldl (fun acc c => if c = '/' then [] else acc ++ [c]) [])

/-- From src/src/result_aggregator.py, `add_results`: the result dict
built for one match, tagging it with the file's name and full path. -/
structure AggResult where
  file_name : String
  file_path : String
  page_number : Nat
  term_name : String
  matched_text : List Char
  context_before : List Char
  context_after : List Char
  position : Nat
deriving DecidableEq, Repr

/-- The result record `add_results` appends for one match. -/
def matchToResult (file_path : String) (m : PDFMatch) : AggResult :=
  { file_name := pathName file_path
    file_path := file_path
    page_number := m.page_number
    term_name := m.term_name
    matched_text := m.matched_text
    context_before := m.context_before
    context_after := m.context_after
    position := m.position }

/-- A `collections.defaultdict(int)` bump: increment the count stored
under a key, inserting the key at the end on first use. -/
def bumpCount (counts : List (String × Nat)) (k : String) : List (String × Nat) :=
  if counts.any (fun p => p.1 = k) then
    counts.map (fun p => if p.1 = k then (p.1, p.2 + 1) else p)
  else counts ++ [(k, 1)]

/-- The state of `ResultAggregator` (src/src/result_aggregator.py):
`results`, `match_counts`, `file_count` and `total_pages`.  The
configured context sizes play no role in the claims and are omitted. -/
structure AggState where
  results : List AggResult
  match_counts : List (String × Nat)
  file_count : Nat
  total_pages : Int
deriving DecidableEq, Repr

/-- `ResultAggregator.__init__`: empty results, zero counters. -/
def freshAggregator : AggState :=
  { results := [], match_counts := [], file_count := 0, total_pages := 0 }

/-- The body of the `for match in matches` loop of `add_results`: append
the result record and bump the term's running count. -/
def appendMatch (file_path : String) (s : AggState) (m : PDFMatch) : AggState :=
  { s with
    results := s.results ++ [matchToResult file_path m]
    match_counts := bumpCount s.match_counts m.term_name }

/-- `ResultAggregator.add_results` (src/src/result_aggregator.py lines
34-62): bump the files-with-matches counter once when `matches` is
non-empty, add `page_count` to the page total when it is positive, then
append one result record per match. -/
def add_results (st : AggState) (file_path : String) (matchList : List PDFMatch)
    (page_count : Int) : AggState :=
  let st1 : AggState :=
    { st with
      file_count := if matchList.isEmpty then st.file_count else st.file_count + 1
      total_pages := if 0 < page_count then st.total_pages + page_count else st.total_pages }
  matchList.foldl (appendMatch file_path) st1

/-- `ResultAggregator.get_total_matches`: `len(self.results)`. -/
def get_total_matches (st : AggState) : Nat :=
  st.results.length

/-- One `add_results` invocation, for replaying a whole run. -/
structure AggCall where
  file_path : String
  matchList : List PDFMatch
  page_count : Int
deriving Repr

/-- Replay a sequence of `add_results` calls on a fresh aggregator. -/
def runAggCalls (calls : List AggCall) : AggState :=
  calls.foldl (fun st c => add_results st c.file_path c.matchList c.page_count)
    freshAggregator

/-- The `defaultdict(list)` append used by the grouping reads: add the
record to its key's group, creating the group at the end on first use. -/
def groupAppend (groups : List (String × List AggResult)) (k : String)
    (r : AggResult) : List (String × List AggResult) :=
  if groups.any (fun g => g.1 = k) then
    groups.map (fun g => if g.1 = k then (g.1, g.2 ++ [r]) else g)
  else groups ++ [(k, [r])]

/-- `ResultAggregator.get_results_by_file` (src/src/result_aggregator.py
lines 141-153): group the result list by its `file_name` field — keys in
first-occurrence order, each group in append order. -/
def get_results_by_file (st : AggState) : List (String × List AggResult) :=
  st.results.foldl (fun gs r => groupAppend gs r.file_name r) []

/-- The message `main` logs when processing one file raises an exception
(src/main.py line 67): `f"Error processing {file_path}"`. -/
def mainErrorMessage (file_path : String) : String :=
  "Error processing " ++ file_path

/-- The message of the exception `extract_text_from_pdf` raises when the
extraction library fails on a file (src/src/pdf_processor.py line 82):
`f"Failed to extract text from {pdf_path}: {e}"`. -/
def extractErrorMessage (file_path : String) (cause : String) : String :=
  "Failed to extract text from " ++ file_path ++ ": " ++ cause

/-- The state `main` threads through its per-file loop: the aggregator
plus the journal of logged error messages. -/
structure RunState where
  agg : AggState
  errorLog : List String
deriving Repr

/-- The per-file loop of `main` (src/main.py lines 56-67): process each
file in order; on success feed its matches to the aggregator (`main`
passes no page count, so it defaults to 0); on an exception log the
error naming the file and continue with the next file.  `process`
abstracts `process_pdf_file` together with the text extraction that can
fail for a whole file. -/
def mainFileLoop (process : String → Except String (List PDFMatch))
    (files : List String) (st : RunState) : RunState :=
  files.foldl
    (fun s f =>
      match process f with
      | .ok results => { s with agg := add_results s.agg f results 0 }
      | .error _ => { s with errorLog := s.errorLog ++ [mainErrorMessage f] })
    st

/-- A concrete per-file processing function for exercising the loop:
exactly one file fails. -/
def demoProcess : String → Except String (List PDFMatch) :=
  fun f => if f = "bad.pdf" then .error "cannot open" else .ok []

/-- Python `str.strip()` whitespace test for the ASCII characters it
removes. -/
def isPySpace (c : Char) : Bool :=
  c = ' ' || c = '\t' || c = '\n' || c = '\r' || c = '\x0b' || c = '\x0c'

/-- Python `str.strip()`: remove whitespace from both ends. -/
def pyStrip (s : List Char) : List Char :=
  ((s.dropWhile isPySpace).reverse.dropWhile isPySpace).reverse

/-- Python `str.lower()` restricted to ASCII, enough for the file
suffixes and fields of this development. -/
def pyLower (s : List Char) : List Char :=
  s.map Char.toLower

/-- Split a character list at every occurrence of a separator; the
separator is consumed, empty pieces are kept. -/
def splitOnChar (sep : Char) : List Char → List (List Char)
  | [] => [[]]
  | c :: cs =>
      match splitOnChar sep cs with
      | [] => if c = sep then [[], []] else [[c]]
      | r :: rs => if c = sep then [] :: r :: rs else (c :: r) :: rs

/-- `csv.reader` over a comma-separated file without quoting: one row
per line, split at commas; an empty line yields the empty row, as the
Python reader does; a trailing newline closes the last line rather than
opening a new one. -/
def parseCsv (content : List Char) : List (List (List Char)) :=
  let lines := splitOnChar '\n' content
  let lines := if lines.getLast? = some [] then lines.dropLast else lines
  lines.map (fun l => if l.isEmpty then ([] : List (List Char)) else splitOnChar ',' l)

/-- The per-column type `csv.Sniffer.has_header` infers from the data
rows: one of the numeric parsers `int`, `float`, `complex`, or the
field's length when none of them accepts the field. -/
inductive ColType where
  | ctInt
  | ctFloat
  | ctComplex
  | ctLen (n : Nat)
deriving DecidableEq, Repr

/-- Whether Python `int(s)` accepts the string: optional surrounding
whitespace and sign followed by at least one digit (digit-group
underscores are not modelled; no input here uses them). -/
def isIntStr (s : List Char) : Bool :=
  let t := pyStrip s
  let t := match t with
    | '+' :: u => u
    | '-' :: u => u
    | u => u
  !t.isEmpty && t.all Char.isDigit

/-- A non-empty run of digits. -/
def digitsOnly (s : List Char) : Bool :=
  !s.isEmpty && s.all Char.isDigit

/-- The mantissa of a float literal: digits with an optional point on
either side. -/
def isMantissa (s : List Char) : Bool :=
  match splitOnChar '.' s with
  | [a] => digitsOnly a
  | [a, b] => (digitsOnly a && (b.isEmpty || digitsOnly b)) || (a.isEmpty && digitsOnly b)
  | _ => false

/-- Whether Python `float(s)` accepts the string: optional surrounding
whitespace and sign, a mantissa, and an optional exponent (`inf` and
`nan` are not modelled; no input here uses them). -/
def isFloatStr (s : List Char) : Bool :=
  let t := pyStrip s
  let t := match t with
    | '+' :: u => u
    | '-' :: u => u
    | u => u
  match splitOnChar 'e' (pyLower t) with
  | [m] => isMantissa m
  | [m, ex] =>
      let ex := match ex with
        | '+' :: u => u
        | '-' :: u => u
        | u => u
      isMantissa m && digitsOnly ex
  | _ => false

/-- Whether Python `complex(s)` accepts the string as a pure-imaginary
literal (`3j`, `-j`, ...).  Real-plus-imaginary composites are not
modelled: in `has_header` the complex parser is consulted only after
`int` and `float` both failed, and a real-only string one of them
rejects is rejected by `complex` too, so pure-imaginary forms are the
only ones that matter. -/
def isComplexStr (s : List Char) : Bool :=
  let t := pyStrip s
  let t := match t with
    | '+' :: u => u
    | '-' :: u => u
    | u => u
  match t.reverse with
  | 'j' :: rest =>
      let body := rest.reverse
      body.isEmpty || isIntStr body || isFloatStr body
  | _ => false

/-- The `for thisType in [int, float, complex]` probe of
`csv.Sniffer.has_header`: the first numeric parser accepting the field,
else the field's length. -/
def fieldColType (s : List Char) : ColType :=
  if isIntStr s then .ctInt
  else if isFloatStr s then .ctFloat
  else if isComplexStr s then .ctComplex
  else .ctLen s.length

/-- The column-type inference pass of `csv.Sniffer.has_header` over the
data rows (at most 21 are examined): a slot is `none` once the rows
disagreed on the column, `some none` while no row of matching width has
been seen, and `some (some t)` when all rows seen agree on `t`; rows
whose width differs from the header's are skipped. -/
def sniffColumnTypes (columns : Nat) (rows : List (List (List Char))) :
    List (Option (Option ColType)) :=
  (rows.take 21).foldl
    (fun types row =>
      if row.length ≠ columns then types
      else List.zipWith
        (fun slot cell =>
          match slot with
          | none => none
          | some none => some (some (fieldColType cell))
          | some (some t) => if fieldColType cell = t then some (some t) else none)
        types row)
    (List.replicate columns (some none))

/-- One column's vote on whether the first row is a header: a
length-typed column votes header when the candidate cell's length
differs, a numeric-typed column votes header when the candidate cell
does not parse as that type (`complex` also accepting what `int` and
`float` do), a dropped column abstains, and a column that saw no data
row votes header (the `TypeError` branch of the source). -/
def headerCellVote (slot : Option (Option ColType)) (cell : List Char) : Int :=
  match slot with
  | none => 0
  | some none => 1
  | some (some (.ctLen n)) => if cell.length ≠ n then 1 else -1
  | some (some .ctInt) => if isIntStr cell then -1 else 1
  | some (some .ctFloat) => if isFloatStr cell then -1 else 1
  | some (some .ctComplex) =>
      if isComplexStr cell || isFloatStr cell || isIntStr cell then -1 else 1

/-- CPython `csv.Sniffer.has_header` for a comma-delimited unquoted
sample, the dialect sniff being assumed to find the comma: treat the
first row as the header candidate, infer a type per column from the
following rows, and report a header when the columns' votes sum to a
positive number.  The source raises on an empty sample; the claims
never load an empty file, and the model returns `false` there. -/
def has_header (rows : List (List (List Char))) : Bool :=
  match rows with
  | [] => false
  | header :: rest =>
      0 < (List.zipWith headerCellVote (sniffColumnTypes header.length rest) header).sum

/-- A Python dict insert `d[k] = v` on an insertion-ordered dict:
overwrite in place when the key exists, else append. -/
def dictInsert (d : List (List Char × List Char)) (k v : List Char) :
    List (List Char × List Char) :=
  if d.any (fun p => p.1 = k) then
    d.map (fun p => if p.1 = k then (p.1, v) else p)
  else d ++ [(k, v)]

/-- src/src/term_loader.py, `_load_csv_terms`: sniff the sample for a
header (the source samples the first 1024 characters; every file in
this development is shorter, so the sample is the whole content), skip
the first row when a header is detected, then keep each row having at
least two columns whose stripped first two cells are both non-empty. -/
def load_csv_terms (content : List Char) : List (List Char × List Char) :=
  let rows := parseCsv content
  let rows := if has_header rows then rows.drop 1 else rows
  rows.foldl
    (fun td row =>
      match row with
      | c0 :: c1 :: _ =>
          let name := pyStrip c0
          let pat := pyStrip c1
          if !name.isEmpty && !pat.isEmpty then dictInsert td name pat else td
      | _ => td)
    []

/-- The errors `load_term_list` can raise before reaching a loader. -/
inductive TermLoadError where
  | notFound (path : String)
  | unsupportedFormat (sfx : List Char)
deriving DecidableEq, Repr

/-- src/src/term_loader.py, `load_term_list`: reject a missing path with
`FileNotFoundError`; dispatch on the lowercased path suffix to the JSON
or CSV loader; reject any other suffix with a `ValueError` whose message
names the (lowercased) extension.  The path is abstracted to its
existence flag and suffix string, and the two loaders to the term sets
they would produce. -/
def load_term_list (path : String) (pathExists : Bool) (sfx : List Char)
    (jsonTerms csvTerms : List (List Char × List Char)) :
    Except TermLoadError (List (List Char × List Char)) :=
  if !pathExists then .error (.notFound path)
  else
    let low := pyLower sfx
    if low = ".json".toList then .ok jsonTerms
    else if low = ".csv".toList then .ok csvTerms
    else .error (.unsupportedFormat low)

/-- A JSON value of the term-list format, whose leaves are strings: a
single keyed object, an array of keyed records, or anything else
(which `_load_json_terms` rejects). -/
inductive JsonTerms where
  | jobj (pairs : List (List Char × List Char))
  | jarr (items : List (List (List Char × List Char)))
  | jother
deriving Repr

/-- The record-shape fallback in the array branch of
`_load_json_terms`: prefer the `name`/`pattern` fields, else
`term`/`regex`, else the record's first two fields in their order;
records with fewer than two fields are skipped. -/
def recordToTerm (item : List (List Char × List Char)) :
    Option (List Char × List Char) :=
  match item.find? (fun p => p.1 = "name".toList),
        item.find? (fun p => p.1 = "pattern".toList) with
  | some n, some p => some (n.2, p.2)
  | _, _ =>
      match item.find? (fun p => p.1 = "term".toList),
            item.find? (fun p => p.1 = "regex".toList) with
      | some t, some r => some (t.2, r.2)
      | _, _ =>
          match item with
          | k0 :: k1 :: _ => some (k0.2, k1.2)
          | _ => none

/-- src/src/term_loader.py, `_load_json_terms`: a keyed object is
returned verbatim — no trimming, no emptiness checks; an array folds
each record through the shape fallback into a dict; anything else
raises `ValueError`. -/
def load_json_terms (data : JsonTerms) :
    Except (List Char) (List (List Char × List Char)) :=
  match data with
  | .jobj pairs => .ok pairs
  | .jarr items =>
      .ok (items.foldl
        (fun td item =>
          match recordToTerm item with
          | some kv => dictInsert td kv.1 kv.2
          | none => td) [])
  | .jother => .error "JSON file must contain an object or array".toList

/-- One entry the directory walk can reach from the root: its full
path, whether it is a regular file, and its depth below the root (1 for
an immediate child). -/
structure FsEntry where
  path : String
  isFile : Bool
  depth : Nat
deriving DecidableEq, Repr

/-- The root argument of `scan_directory`: missing, existing but not a
directory, or a directory with the entries the glob walk can reach. -/
inductive FsRoot where
  | missing
  | nonDir
  | dir (entries : List FsEntry)
deriving Repr

/-- The conditions `scan_directory` raises for an invalid root. -/
inductive ScanError where
  | notFound
  | notADirectory
deriving DecidableEq, Repr

/-- Whether `root.glob(("**/" if recursive else "") + "*" + ext)` yields
the entry: every depth is visible recursively, only depth 1 otherwise,
and the entry's base name must end with the requested extension —
case-sensitively, as POSIX globbing is. -/
def globHit (recursive : Bool) (ext : List Char) (e : FsEntry) : Bool :=
  (recursive || e.depth = 1) && ext.isSuffixOf (pathName e.path).toList

/-- Lexicographic at-most on character lists by code point, the order
Python uses to compare strings. -/
def lexLeB : List Char → List Char → Bool
  | [], _ => true
  | _ :: _, [] => false
  | a :: as, b :: bs =>
      if a < b then true
      else if b < a then false
      else lexLeB as bs

/-- Python string comparison `a <= b`, by code point.  `pathlib` sorts
by the tuple of path components; for the paths of one scan the two
orders agree except around exotic component boundaries, which no claim
exercises. -/
abbrev strLe (a b : String) : Prop :=
  lexLeB a.toList b.toList = true

/-- src/src/file_scanner.py, `scan_directory`: reject a missing root or
a non-directory; lowercase the requested extensions; run one glob per
extension and concatenate all their hits; keep regular files only; sort
ascending with `files.sort()`. -/
def scan_directory (root : FsRoot) (extensions : List String)
    (recursive : Bool) : Except ScanError (List String) :=
  match root with
  | .missing => .error .notFound
  | .nonDir => .error .notADirectory
  | .dir entries =>
      let exts := extensions.map (fun e => pyLower e.toList)
      let hits := (exts.map (fun ext => entries.filter (globHit recursive ext))).flatten
      let files := (hits.filter FsEntry.isFile).map FsEntry.path
      .ok (files.insertionSort strLe)

theorem foldl_append_eq_flatten {α β : Type} (g : List β → α → List β)
    (f : α → List β) (hg : ∀ acc a, g acc a = acc ++ f a) :
    ∀ (l : List α) (init : List β), l.foldl g init = init ++ (l.map f).flatten := by
  intro l
  induction l with
  | nil => intro init; simp
  | cons a l ih => intro init; simp [hg, ih]

theorem termGroup_length (compile : RegexEngine) (text : List Char)
    (term : String × String) (pageNumber contextBefore contextAfter : Nat) :
    (termGroup compile text term pageNumber contextBefore contextAfter).length
      = (termSpans compile term.2 text).length := by
  simp [termGroup]

theorem sum_termSpans_filter (compile : RegexEngine) (text : List Char) :
    ∀ termDict : List (String × String),
      ((termDict.filter (fun t => (compile t.2).isSome)).map
          (fun t => (termSpans compile t.2 text).length)).sum
        = (termDict.map (fun t => (termSpans compile t.2 text).length)).sum := by
  intro td
  induction td with
  | nil => rfl
  | cons a l ih =>
      cases h : compile a.2 with
      | none =>
          have ha : termSpans compile a.2 text = [] := by simp [termSpans, h]
          simp [List.filter_cons, h, ha, ih]
      | some m => simp [List.filter_cons, h, ih]

/-- C1: the matcher's output for one page is grouped by term in the term
set's iteration order (it is the concatenation of the per-term blocks,
never re-sorted by position); within one term the records appear in the
engine's scan order — their positions are exactly the spans' start
offsets, in order; and the output length is the sum, over the terms whose
pattern compiles, of that term's span count. -/
theorem C1_search_output_grouped_by_term (compile : RegexEngine)
    (text : List Char) (termDict : List (String × String))
    (pageNumber contextBefore contextAfter : Nat) :
    search_text_for_patterns compile text termDict pageNumber contextBefore contextAfter
        = (termDict.map
            (fun term => termGroup compile text term pageNumber contextBefore contextAfter)).flatten
      ∧ (search_text_for_patterns compile text termDict pageNumber contextBefore contextAfter).length
        = ((termDict.filter (fun term => (compile term.2).isSome)).map
            (fun term => (termSpans compile term.2 text).length)).sum
      ∧ ∀ term : String × String,
          (termGroup compile text term pageNumber contextBefore contextAfter).map PDFMatch.position
            = (termSpans compile term.2 text).map Prod.fst := by
  have hbody : ∀ (acc : List PDFMatch) (term : String × String),
      (match compile term.2 with
        | none => acc
        | some finditer =>
            acc ++ (finditer text).map
              (mkPdfMatch text term.1 pageNumber contextBefore contextAfter))
        = acc ++ termGroup compile text term pageNumber contextBefore contextAfter := by
    intro acc term
    cases h : compile term.2 with
    | none => simp [termGroup, termSpans, h]
    | some m => simp [termGroup, termSpans, h]
  have hfold := foldl_append_eq_flatten
    (fun acc term =>
      match compile term.2 with
      | none => acc
      | some finditer =>
          acc ++ (finditer text).map
            (mkPdfMatch text term.1 pageNumber contextBefore contextAfter))
    (fun term => termGroup compile text term pageNumber contextBefore contextAfter)
    hbody termDict []
  have hmain : search_text_for_patterns compile text termDict pageNumber contextBefore contextAfter
      = (termDict.map
          (fun term => termGroup compile text term pageNumber contextBefore contextAfter)).flatten := by
    simpa [search_text_for_patterns] using hfold
  refine ⟨hmain, ?_, ?_⟩
  · rw [hmain, List.length_flatten, List.map_map, sum_termSpans_filter]
    simp only [Function.comp_def, termGroup_length]
  · intro term
    simp [termGroup, mkPdfMatch]

/-- C2: a match record's `context_before` is the Python slice
`text[max(0, start - n_before) : start]` (the clamped low index is
truncated subtraction) and its `context_after` is
`text[stop : min(len(text), stop + n_after)]`; each context's length is
at most the configured bound, so a match at either boundary of the text
stays in range. -/
theorem C2_context_windows_clamped (text : List Char) (termName : String)
    (pageNumber contextBefore contextAfter startPos endPos : Nat) :
    (mkPdfMatch text termName pageNumber contextBefore contextAfter
        (startPos, endPos)).context_before
        = pySlice text (startPos - contextBefore) startPos
      ∧ (mkPdfMatch text termName pageNumber contextBefore contextAfter
          (startPos, endPos)).context_after
        = pySlice text endPos (min text.length (endPos + contextAfter))
      ∧ (mkPdfMatch text termName pageNumber contextBefore contextAfter
          (startPos, endPos)).context_before.length ≤ contextBefore
      ∧ (mkPdfMatch text termName pageNumber contextBefore contextAfter
          (startPos, endPos)).context_after.length ≤ contextAfter := by
  have hlow : (max 0 ((startPos : Int) - (contextBefore : Int))).toNat
      = startPos - contextBefore := by omega
  refine ⟨by simp [mkPdfMatch, hlow], by simp [mkPdfMatch], ?_, ?_⟩
  · simp only [mkPdfMatch, hlow, pySlice, List.length_drop, List.length_take]
    omega
  · simp only [mkPdfMatch, pySlice, List.length_drop, List.length_take]
    omega

theorem foldl_appendMatch_results (fp : String) :
    ∀ (ms : List PDFMatch) (s : AggState),
      (ms.foldl (appendMatch fp) s).results = s.results ++ ms.map (matchToResult fp) := by
  intro ms
  induction ms with
  | nil => intro s; simp
  | cons m ms ih => intro s; simp [appendMatch, ih]

theorem foldl_appendMatch_file_count (fp : String) :
    ∀ (ms : List PDFMatch) (s : AggState),
      (ms.foldl (appendMatch fp) s).file_count = s.file_count := by
  intro ms
  induction ms with
  | nil => intro s; rfl
  | cons m ms ih => intro s; simp [appendMatch, ih]

theorem foldl_appendMatch_total_pages (fp : String) :
    ∀ (ms : List PDFMatch) (s : AggState),
      (ms.foldl (appendMatch fp) s).total_pages = s.total_pages := by
  intro ms
  induction ms with
  | nil => intro s; rfl
  | cons m ms ih => intro s; simp [appendMatch, ih]

theorem add_results_results (st : AggState) (fp : String) (ms : List PDFMatch)
    (pc : Int) :
    (add_results st fp ms pc).results = st.results ++ ms.map (matchToResult fp) := by
  simp [add_results, foldl_appendMatch_results]

theorem add_results_results_length (st : AggState) (fp : String)
    (ms : List PDFMatch) (pc : Int) :
    (add_results st fp ms pc).results.length = st.results.length + ms.length := by
  rw [add_results_results]; simp

theorem add_results_file_count (st : AggState) (fp : String) (ms : List PDFMatch)
    (pc : Int) :
    (add_results st fp ms pc).file_count
      = st.file_count + (if ms.isEmpty then 0 else 1) := by
  rw [add_results, foldl_appendMatch_file_count]
  cases ms <;> simp

theorem add_results_total_pages (st : AggState) (fp : String) (ms : List PDFMatch)
    (pc : Int) :
    (add_results st fp ms pc).total_pages
      = st.total_pages + (if 0 < pc then pc else 0) := by
  rw [add_results, foldl_appendMatch_total_pages]
  by_cases hp : 0 < pc <;> simp [hp]

theorem runAggCalls_from (calls : List AggCall) : ∀ st : AggState,
    ((calls.foldl (fun s c => add_results s c.file_path c.matchList c.page_count) st).results.length
        = st.results.length + (calls.map (fun c => c.matchList.length)).sum)
      ∧ ((calls.foldl (fun s c => add_results s c.file_path c.matchList c.page_count) st).file_count
        = st.file_count + calls.countP (fun c => !c.matchList.isEmpty))
      ∧ ((calls.foldl (fun s c => add_results s c.file_path c.matchList c.page_count) st).total_pages
        = st.total_pages
            + ((calls.filter (fun c => 0 < c.page_count)).map AggCall.page_count).sum) := by
  induction calls with
  | nil => intro st; simp
  | cons c cs ih =>
      intro st
      obtain ⟨h1, h2, h3⟩ := ih (add_results st c.file_path c.matchList c.page_count)
      refine ⟨?_, ?_, ?_⟩
      · rw [List.foldl_cons, h1, add_results_results_length]
        simp [Nat.add_assoc]
      · rw [List.foldl_cons, h2, add_results_file_count, List.countP_cons]
        cases hE : c.matchList.isEmpty <;> simp [hE] <;> omega
      · rw [List.foldl_cons, h3, add_results_total_pages, List.filter_cons]
        by_cases hp : 0 < c.page_count <;> simp [hp] <;> omega

/-- C3: replaying any sequence of `add_results` calls on a fresh
aggregator, the total match count equals the number of match records
passed across all calls (none dropped or deduplicated); the
files-with-matches counter equals the number of calls whose match list
was non-empty (once per call, not per match); and the running page total
is the sum of the positive `page_count` arguments. -/
theorem C3_aggregator_counters (calls : List AggCall) :
    get_total_matches (runAggCalls calls) = (calls.map (fun c => c.matchList.length)).sum
      ∧ (runAggCalls calls).file_count = calls.countP (fun c => !c.matchList.isEmpty)
      ∧ (runAggCalls calls).total_pages
        = ((calls.filter (fun c => 0 < c.page_count)).map AggCall.page_count).sum := by
  obtain ⟨h1, h2, h3⟩ := runAggCalls_from calls freshAggregator
  refine ⟨?_, ?_, ?_⟩
  · simpa [get_total_matches, runAggCalls, freshAggregator] using h1
  · simpa [runAggCalls, freshAggregator] using h2
  · simpa [runAggCalls, freshAggregator] using h3

theorem groupAppend_all_same (k : String) :
    ∀ (rs : List AggResult) (acc : List AggResult),
      (∀ r ∈ rs, r.file_name = k) →
      rs.foldl (fun gs r => groupAppend gs r.file_name r) [(k, acc)] = [(k, acc ++ rs)] := by
  intro rs
  induction rs with
  | nil => intro acc _; simp
  | cons r rs ih =>
      intro acc h
      have hr : r.file_name = k := h r (by simp)
      have hrest : ∀ x ∈ rs, x.file_name = k := fun x hx => h x (by simp [hx])
      rw [List.foldl_cons]
      have hstep : groupAppend [(k, acc)] r.file_name r = [(k, acc ++ [r])] := by
        simp [groupAppend, hr]
      rw [hstep, ih (acc ++ [r]) hrest]
      simp

/-- C9: grouping aggregated results by file keys on the bare file name
only: two `add_results` calls for distinct paths that share a base name
end up merged into a single group under that shared name. -/
theorem C9_group_by_file_merges_same_basename (p1 p2 : String)
    (m1 m2 : List PDFMatch) (pc1 pc2 : Int)
    (hne : p1 ≠ p2) (hsame : pathName p1 = pathName p2)
    (h1 : m1 ≠ []) (h2 : m2 ≠ []) :
    get_results_by_file (add_results (add_results freshAggregator p1 m1 pc1) p2 m2 pc2)
      = [(pathName p1, m1.map (matchToResult p1) ++ m2.map (matchToResult p2))] := by
  have hres : (add_results (add_results freshAggregator p1 m1 pc1) p2 m2 pc2).results
      = m1.map (matchToResult p1) ++ m2.map (matchToResult p2) := by
    rw [add_results_results, add_results_results]
    simp [freshAggregator]
  have hall : ∀ r ∈ m1.map (matchToResult p1) ++ m2.map (matchToResult p2),
      r.file_name = pathName p1 := by
    intro r hr
    rcases List.mem_append.mp hr with hmem | hmem
    · obtain ⟨m, _, rfl⟩ := List.mem_map.mp hmem; rfl
    · obtain ⟨m, _, rfl⟩ := List.mem_map.mp hmem
      simpa [matchToResult] using hsame.symm
  cases hm : m1.map (matchToResult p1) ++ m2.map (matchToResult p2) with
  | nil =>
      exfalso
      cases m1 with
      | nil => exact h1 rfl
      | cons a l => simp at hm
  | cons r0 rest =>
      have h0 : r0.file_name = pathName p1 := hall r0 (by rw [hm]; simp)
      have hrest : ∀ x ∈ rest, x.file_name = pathName p1 := by
        intro x hx
        exact hall x (by rw [hm]; simp [hx])
      unfold get_results_by_file
      rw [hres, hm, List.foldl_cons]
      have hfirst : groupAppend [] r0.file_name r0 = [(r0.file_name, [r0])] := by
        simp [groupAppend]
      rw [hfirst, h0, groupAppend_all_same (pathName p1) rest [r0] hrest, ← hm]
      simp [hm]

/-- Witness for C9 at a concrete pair of paths sharing base name x.pdf. -/
theorem C9_group_by_file_merges_same_basename_witness :
    get_results_by_file (add_results (add_results freshAggregator "a/x.pdf"
        [⟨"t", ['m'], 1, [], [], 0⟩] 0) "b/x.pdf" [⟨"t", ['m'], 2, [], [], 3⟩] 0)
      = [(pathName "a/x.pdf",
          [matchToResult "a/x.pdf" ⟨"t", ['m'], 1, [], [], 0⟩,
           matchToResult "b/x.pdf" ⟨"t", ['m'], 2, [], [], 3⟩])] := by
  have h := C9_group_by_file_merges_same_basename "a/x.pdf" "b/x.pdf"
      [⟨"t", ['m'], 1, [], [], 0⟩] [⟨"t", ['m'], 2, [], [], 3⟩] 0 0
      (by decide) (by decide) (by simp) (by simp)
  simpa using h

/-- C6 counterexample: processing a two-page document with a single term
passes that term's pattern to `re.compile` twice — once per page — so
the pattern is not compiled at most once per run. -/
theorem C6_counterexample_recompiled_per_page :
    (process_compile_trace [(1, ['x']), (2, ['y'])] [("Invoice", "INV")]).count "INV" = 2
      ∧ ¬ ((process_compile_trace [(1, ['x']), (2, ['y'])] [("Invoice", "INV")]).count "INV"
            ≤ 1) := by
  constructor <;> decide

/-- C6 amended: during one `process_pdf_file` call a pattern is passed
to `re.compile` once per page for each term carrying it: the number of
compilations equals the page count times the pattern's multiplicity in
the term dict. -/
theorem C6_amended_compile_once_per_page_per_term
    (pageTexts : List (Nat × List Char)) (termDict : List (String × String))
    (pat : String) :
    (process_compile_trace pageTexts termDict).count pat
      = pageTexts.length * ((termDict.map Prod.snd).count pat) := by
  induction pageTexts with
  | nil => simp [process_compile_trace]
  | cons p ps ih =>
      have hsplit : process_compile_trace (p :: ps) termDict
          = search_compile_trace termDict ++ process_compile_trace ps termDict := by
        simp [process_compile_trace]
      rw [hsplit, List.count_append, ih, search_compile_trace, List.length_cons,
        Nat.succ_mul]
      omega

/-- C8: when processing one file fails, the caller logs an error naming
that file, the aggregator is left exactly as it was after the earlier
files, and the loop continues with the remaining files; the wrapped
extraction error also names the file. -/
theorem C8_per_file_error_isolated (process : String → Except String (List PDFMatch))
    (files1 files2 : List String) (f cause : String) (st : RunState)
    (h : process f = .error cause) :
    mainFileLoop process (files1 ++ f :: files2) st
        = mainFileLoop process files2
            { mainFileLoop process files1 st with
              errorLog := (mainFileLoop process files1 st).errorLog
                ++ [mainErrorMessage f] }
      ∧ ({ mainFileLoop process files1 st with
            errorLog := (mainFileLoop process files1 st).errorLog
              ++ [mainErrorMessage f] }).agg
          = (mainFileLoop process files1 st).agg
      ∧ List.IsInfix f.toList (mainErrorMessage f).toList
      ∧ List.IsInfix f.toList (extractErrorMessage f cause).toList := by
  refine ⟨?_, rfl, ?_, ?_⟩
  · unfold mainFileLoop
    rw [List.foldl_append, List.foldl_cons, h]
  · exact ⟨"Error processing ".toList, [], by simp [mainErrorMessage]⟩
  · exact ⟨"Failed to extract text from ".toList, (": " ++ cause).toList,
      by simp [extractErrorMessage]⟩

/-- Witness for C8: the middle of three files fails and is skipped. -/
theorem C8_per_file_error_isolated_witness :
    (mainFileLoop demoProcess (["a.pdf"] ++ "bad.pdf" :: ["b.pdf"]) ⟨freshAggregator, []⟩
        = mainFileLoop demoProcess ["b.pdf"]
            { mainFileLoop demoProcess ["a.pdf"] ⟨freshAggregator, []⟩ with
              errorLog := (mainFileLoop demoProcess ["a.pdf"] ⟨freshAggregator, []⟩).errorLog
                ++ [mainErrorMessage "bad.pdf"] }
      ∧ ({ mainFileLoop demoProcess ["a.pdf"] ⟨freshAggregator, []⟩ with
            errorLog := (mainFileLoop demoProcess ["a.pdf"] ⟨freshAggregator, []⟩).errorLog
              ++ [mainErrorMessage "bad.pdf"] }).agg
          = (mainFileLoop demoProcess ["a.pdf"] ⟨freshAggregator, []⟩).agg
      ∧ List.IsInfix "bad.pdf".toList (mainErrorMessage "bad.pdf").toList
      ∧ List.IsInfix "bad.pdf".toList
          (extractErrorMessage "bad.pdf" "cannot open").toList) :=
  C8_per_file_error_isolated demoProcess ["a.pdf"] ["b.pdf"] "bad.pdf" "cannot open"
    ⟨freshAggregator, []⟩ (by simp [demoProcess])

/-- C4 counterexample: the header-less two-term file
`Invoice,INV-\d+` / `PO,PO#\d+` loses its first row — the sniffing
heuristic takes the differing cell lengths of the two rows as evidence
of a header — so the heuristic does discard the first row of a
header-less file. -/
theorem C4_counterexample_headerless_first_row_dropped :
    load_csv_terms "Invoice,INV-\\d+\nPO,PO#\\d+\n".toList
        = [("PO".toList, "PO#\\d+".toList)]
      ∧ ("Invoice".toList, "INV-\\d+".toList) ∉
          load_csv_terms "Invoice,INV-\\d+\nPO,PO#\\d+\n".toList := by
  constructor
  · decide
  · decide

/-- C4 amended: loading the two-row header-less file `A,foo` / `B,bar`
yields the term set A → foo, B → bar with no row dropped — the
heuristic spares the first row of this file, whose cell lengths agree
column by column — though not of every header-less file. -/
theorem C4_amended_two_row_csv_no_row_dropped :
    load_csv_terms "A,foo\nB,bar\n".toList
      = [("A".toList, "foo".toList), ("B".toList, "bar".toList)] := by
  decide

/-- C7: `load_term_list` rejects a missing path with the not-found
error; an existing path whose lowercased suffix is neither `.json` nor
`.csv` with the unsupported-format error naming that lowercased
extension; and it dispatches `.json` and `.csv` suffixes to their
loaders, rejecting no other source by its extension. -/
theorem C7_load_term_list_dispatch (path : String) (pathExists : Bool)
    (sfx : List Char) (jsonTerms csvTerms : List (List Char × List Char)) :
    (pathExists = false →
        load_term_list path pathExists sfx jsonTerms csvTerms
          = .error (.notFound path))
      ∧ (pathExists = true → pyLower sfx ≠ ".json".toList →
          pyLower sfx ≠ ".csv".toList →
          load_term_list path pathExists sfx jsonTerms csvTerms
            = .error (.unsupportedFormat (pyLower sfx)))
      ∧ (pathExists = true → pyLower sfx = ".json".toList →
          load_term_list path pathExists sfx jsonTerms csvTerms = .ok jsonTerms)
      ∧ (pathExists = true → pyLower sfx = ".csv".toList →
          load_term_list path pathExists sfx jsonTerms csvTerms = .ok csvTerms) := by
  refine ⟨?_, ?_, ?_, ?_⟩
  · intro h; simp [load_term_list, h]
  · intro he hj hc
    simp [load_term_list, he]
    split_ifs with h1 h2
    · exact absurd h1 hj
    · exact absurd h2 hc
    · rfl
  · intro he hj; simp [load_term_list, he, hj]
  · intro he hc
    have hj : pyLower sfx ≠ ".json".toList := by
      rw [hc]; decide
    simp [load_term_list, he, hj, hc]

/-- Witness for C7: an existing `.TXT` source is rejected with the
unsupported-format error naming `.txt`. -/
theorem C7_load_term_list_dispatch_witness :
    load_term_list "terms.txt" true ".TXT".toList [] []
      = .error (.unsupportedFormat ".txt".toList) := by
  have h := (C7_load_term_list_dispatch "terms.txt" true ".TXT".toList [] []).2.1
    rfl (by decide) (by decide)
  have hl : pyLower ".TXT".toList = ".txt".toList := by decide
  rw [hl] at h
  exact h

/-- C10: the JSON object branch returns its mapping verbatim — every
pair, untrimmed, empty names and empty patterns included — while the
CSV path trims cells and drops rows with an empty cell, as the
analogous CSV input shows. -/
theorem C10_json_object_verbatim :
    (∀ pairs, load_json_terms (.jobj pairs) = .ok pairs)
      ∧ load_json_terms (.jobj [("  a  ".toList, []), ([], "p".toList)])
          = .ok [("  a  ".toList, []), ([], "p".toList)]
      ∧ load_csv_terms "a,p\n,q\n".toList = [("a".toList, "p".toList)] := by
  exact ⟨fun pairs => rfl, rfl, by decide⟩

/-- C5 counterexample: with the overlapping requested extensions `.pdf`
and `.PDF` the same file is returned twice — the scan does not
deduplicate — and a file named `X.PDF` is not matched by the requested
`.pdf`, since only the requested extension is lowercased, never the
file name. -/
theorem C5_counterexample_duplicates_and_case :
    scan_directory (.dir [⟨"a.pdf", true, 1⟩]) [".pdf", ".PDF"] false
        = .ok ["a.pdf", "a.pdf"]
      ∧ ¬ (["a.pdf", "a.pdf"] : List String).Nodup
      ∧ scan_directory (.dir [⟨"X.PDF", true, 1⟩]) [".pdf"] false = .ok [] := by
  refine ⟨?_, by decide, ?_⟩
  · simp only [scan_directory]
    exact congrArg Except.ok (by decide)
  · simp only [scan_directory]
    exact congrArg Except.ok (by decide)

theorem lexLeB_cons_iff (x y : Char) (xs ys : List Char) :
    lexLeB (x :: xs) (y :: ys) = true
      ↔ x < y ∨ (x = y ∧ lexLeB xs ys = true) := by
  by_cases h1 : x < y
  · simp [lexLeB, h1]
  · by_cases h2 : y < x
    · have hne : x ≠ y := fun he => absurd (he ▸ h2) (lt_irrefl x)
      simp [lexLeB, h1, h2, hne]
    · have hxy : x = y := le_antisymm (not_lt.mp h2) (not_lt.mp h1)
      simp [lexLeB, h1, h2, hxy]

theorem lexLeB_total : ∀ a b : List Char, lexLeB a b = true ∨ lexLeB b a = true
  | [], _ => Or.inl rfl
  | _ :: _, [] => Or.inr rfl
  | a :: as, b :: bs => by
      rcases lt_trichotomy a b with h | h | h
      · exact Or.inl ((lexLeB_cons_iff a b as bs).mpr (Or.inl h))
      · rcases lexLeB_total as bs with ih | ih
        · exact Or.inl ((lexLeB_cons_iff a b as bs).mpr (Or.inr ⟨h, ih⟩))
        · exact Or.inr ((lexLeB_cons_iff b a bs as).mpr (Or.inr ⟨h.symm, ih⟩))
      · exact Or.inr ((lexLeB_cons_iff b a bs as).mpr (Or.inl h))

theorem lexLeB_trans : ∀ a b c : List Char,
    lexLeB a b = true → lexLeB b c = true → lexLeB a c = true
  | [], _, _ => fun _ _ => rfl
  | _ :: _, [], _ => fun hab => by simp [lexLeB] at hab
  | _ :: _, _ :: _, [] => fun _ hbc => by simp [lexLeB] at hbc
  | a :: as, b :: bs, c :: cs => fun hab hbc => by
      rcases (lexLeB_cons_iff a b as bs).mp hab with h1 | ⟨h1, h1r⟩ <;>
        rcases (lexLeB_cons_iff b c bs cs).mp hbc with h2 | ⟨h2, h2r⟩
      · exact (lexLeB_cons_iff a c as cs).mpr (Or.inl (lt_trans h1 h2))
      · exact (lexLeB_cons_iff a c as cs).mpr (Or.inl (h2 ▸ h1))
      · exact (lexLeB_cons_iff a c as cs).mpr (Or.inl (h1 ▸ h2))
      · exact (lexLeB_cons_iff a c as cs).mpr
          (Or.inr ⟨h1.trans h2, lexLeB_trans as bs cs h1r h2r⟩)

/-- C5 amended: an invalid root raises the matching error; for a
directory the scan returns an ascending-sorted list whose members are
exactly the regular-file paths visible at the scanned depth whose base
name ends — case-sensitively — with some lowercased requested
extension.  (The list is not deduplicated: a path recurs when several
requested extensions match it.) -/
theorem C5_amended_scan_sorted_and_membership (entries : List FsEntry)
    (extensions : List String) (recursive : Bool) :
    scan_directory .missing extensions recursive = .error .notFound
      ∧ scan_directory .nonDir extensions recursive = .error .notADirectory
      ∧ ∃ files, scan_directory (.dir entries) extensions recursive = .ok files
          ∧ files.Sorted strLe
          ∧ ∀ p, p ∈ files ↔ ∃ e ∈ entries, e.path = p ∧ e.isFile = true
              ∧ (recursive = true ∨ e.depth = 1)
              ∧ ∃ x ∈ extensions,
                  List.IsSuffix (pyLower x.toList) (pathName p).toList := by
  have htot : IsTotal String strLe := ⟨fun a b => lexLeB_total a.toList b.toList⟩
  have htrans : IsTrans String strLe :=
    ⟨fun a b c => lexLeB_trans a.toList b.toList c.toList⟩
  refine ⟨rfl, rfl, ?_⟩
  refine ⟨_, rfl, @List.sorted_insertionSort String strLe _ htot htrans _, ?_⟩
  intro p
  rw [(List.perm_insertionSort _ _).mem_iff]
  constructor
  · intro hp
    obtain ⟨e, heFilt, rfl⟩ := List.mem_map.mp hp
    obtain ⟨heHits, hfile⟩ := List.mem_filter.mp heFilt
    obtain ⟨l, hl, hel⟩ := List.mem_flatten.mp heHits
    obtain ⟨ext, hext, rfl⟩ := List.mem_map.mp hl
    obtain ⟨x, hx, rfl⟩ := List.mem_map.mp hext
    obtain ⟨he, hglob⟩ := List.mem_filter.mp hel
    have hg : (recursive = true ∨ e.depth = 1)
        ∧ List.IsSuffix (pyLower x.toList) (pathName e.path).toList := by
      simpa [globHit, List.isSuffixOf] using hglob
    exact ⟨e, he, rfl, hfile, hg.1, x, hx, hg.2⟩
  · rintro ⟨e, he, rfl, hfile, hvis, x, hx, hsfx⟩
    apply List.mem_map.mpr
    refine ⟨e, ?_, rfl⟩
    apply List.mem_filter.mpr
    refine ⟨?_, hfile⟩
    apply List.mem_flatten.mpr
    refine ⟨entries.filter (globHit recursive (pyLower x.toList)), ?_, ?_⟩
    · exact List.mem_map.mpr ⟨pyLower x.toList, List.mem_map.mpr ⟨x, hx, rfl⟩, rfl⟩
    · refine List.mem_filter.mpr ⟨he, ?_⟩
      simpa [globHit, List.isSuffixOf] using ⟨hvis, hsfx⟩

/-- Witness for the amended C5 statement at a concrete invalid root. -/
theorem C5_amended_scan_sorted_and_membership_witness :
    scan_directory .missing [".pdf"] false = .error .notFound :=
  (C5_amended_scan_sorted_and_membership [] [".pdf"] false).1
